import Mathlib

/-!
# Indexer health checker

A shallow embedding of `healthchecker.go`: the configuration lookup `getConfig`,
the one-shot check `main`, and the parts of the Go runtime and standard library
that `main` relies on (64-bit signed subtraction, `strconv.ParseInt` in base 10,
`defer`, `os.Exit`, `fmt` formatting of integers and strings).

Everything outside the process (the environment, the store, the wall clock, the
JSON decoder's verdict) is collected in a `World` value, and one run of `main`
is a function from a `World` to the final process state `Proc`, whose `trace`
lists the observable calls in the order the program makes them.
-/

namespace HealthChecker

/-! ## Machine integers -/

/-- The smallest value of Go's `int64`. -/
def minInt64 : Int := -9223372036854775808

/-- The largest value of Go's `int64`. -/
def maxInt64 : Int := 9223372036854775807

/-- Membership of an integer in the range of Go's `int64`. -/
def isInt64 (x : Int) : Prop := minInt64 ≤ x ∧ x ≤ maxInt64

instance (x : Int) : Decidable (isInt64 x) := by
  unfold isInt64; exact inferInstance

/-- Reduction of an exact integer to the `int64` it denotes in two's complement
(what Go keeps of the result of `+`, `-` on `int64` operands). -/
def wrapInt64 (x : Int) : Int :=
  (x + 9223372036854775808) % 18446744073709551616 - 9223372036854775808

/-- Go's `a - b` on `int64` operands. -/
def subInt64 (a b : Int) : Int := wrapInt64 (a - b)

/-! ## The data model -/

/-- The record `IndexerState`: the JSON object stored in the cache, with its one
field `gen_utime` (an `int64`). -/
structure IndexerState where
  GenUtime : Int
  deriving DecidableEq, Repr

/-! ## The outside world -/

/-- The result of `rdb.Get(ctx, key).Result()`: a value, the distinguished
`redis.Nil` error, or any other error with the text `%v` prints for it. -/
inductive GetResult where
  | value (stateJSON : String)
  | redisNil
  | otherErr (text : String)
  deriving DecidableEq, Repr

/-- The result of `json.Unmarshal` into an `IndexerState`: the decoded record, or
an error with the text `%v` prints for it. -/
inductive UnmarshalResult where
  | ok (state : IndexerState)
  | err (text : String)
  deriving DecidableEq, Repr

/-- Everything one run of the program reads from outside the process. -/
structure World where
  /-- `os.LookupEnv`: `none` when the variable is not set. -/
  lookupEnv : String → Option String
  /-- The answer of the store at an address to a `GET` of a key, within the
  deadline of the request context. -/
  get : String → String → GetResult
  /-- The verdict of `json.Unmarshal` on the fetched value. -/
  unmarshal : String → UnmarshalResult
  /-- The value of `time.Now().Unix()`. -/
  now : Int
  /-- The function `strconv.Quote`, used in the text of a `strconv.NumError`. -/
  quote : String → String

/-! ## `getConfig` -/

/-- The function `getConfig`: the value of the environment variable `key` when
`os.LookupEnv` reports it as set, the fallback otherwise. -/
def getConfig (w : World) (key fallback : String) : String :=
  match w.lookupEnv key with
  | some value => value
  | none => fallback

/-! ## `strconv.ParseInt(s, 10, 64)` -/

/-- The two errors of `strconv`: `ErrSyntax` and `ErrRange`. -/
inductive NumErrKind where
  | ErrSyntax
  | ErrRange
  deriving DecidableEq, Repr

/-- The value of a decimal digit byte, `none` for any other character (in base 10
every other byte is rejected, the underscore included). -/
def digitVal (c : Char) : Option Nat :=
  if 48 ≤ c.toNat ∧ c.toNat ≤ 57 then some (c.toNat - 48) else none

/-- The loop of `strconv.ParseUint(s, 10, 64)` over the bytes of a non-empty
string, with accumulator `n`: a byte that is no digit is a syntax error, an
accumulator at or above `maxUint64/10 + 1` before the multiplication, or a sum
above `maxUint64`, is a range error. -/
def parseUintLoop : List Char → Nat → Except NumErrKind Nat
  | [], n => .ok n
  | c :: cs, n =>
    match digitVal c with
    | none => .error .ErrSyntax
    | some d =>
      if 1844674407370955162 ≤ n then .error .ErrRange
      else if 18446744073709551615 < n * 10 + d then .error .ErrRange
      else parseUintLoop cs (n * 10 + d)

/-- The function `strconv.ParseUint(s, 10, 64)`. -/
def parseUint (s : List Char) : Except NumErrKind Nat :=
  match s with
  | [] => .error .ErrSyntax
  | _ => parseUintLoop s 0

/-- The function `strconv.ParseInt(s, 10, 64)`: an optional sign, then
`ParseUint`, then the check against the cutoff `2^63`. -/
def parseInt (s : String) : Except NumErrKind Int :=
  match s.data with
  | [] => .error .ErrSyntax
  | c :: cs =>
    let neg : Bool := c = '-'
    let rest : List Char := if c = '+' then cs else if c = '-' then cs else c :: cs
    match parseUint rest with
    | .error .ErrSyntax => .error .ErrSyntax
    | .error .ErrRange => .error .ErrRange
    | .ok un =>
      if !neg ∧ 9223372036854775808 ≤ un then .error .ErrRange
      else if neg ∧ 9223372036854775808 < un then .error .ErrRange
      else if neg then .ok (-(un : Int)) else .ok (un : Int)

/-- The text of a `*strconv.NumError` returned by `ParseInt` for the input `s`. -/
def numErrorText (w : World) (s : String) : NumErrKind → String
  | .ErrSyntax => "strconv.ParseInt: parsing " ++ w.quote s ++ ": invalid syntax"
  | .ErrRange => "strconv.ParseInt: parsing " ++ w.quote s ++ ": value out of range"

/-! ## The process -/

/-- The two output streams of the process. -/
inductive Stream where
  | stdout
  | stderr
  deriving DecidableEq, Repr

/-- The observable calls of one run, in program order. -/
inductive Event where
  /-- A write of `fmt.Printf` (standard output) or `fmt.Fprintf(os.Stderr, …)`. -/
  | write (stream : Stream) (text : String)
  /-- The call `redis.NewClient` with the address. -/
  | newClient (addr : String)
  /-- The call `rdb.Get(ctx, key)`. -/
  | get (key : String)
  /-- The call `time.Now()`. -/
  | timeNow
  /-- The call `rdb.Close()`. -/
  | close
  /-- The call `cancel()` of the request context. -/
  | cancel
  deriving DecidableEq, Repr

/-- The state of the process: the calls made so far, the stack of calls
registered by `defer` and not yet run (most recent first), and the exit code
once the process has terminated. -/
structure Proc where
  trace : List Event
  deferred : List Event
  exitCode : Option Int
  deriving DecidableEq, Repr

/-- The process at the start of `main`. -/
def Proc.start : Proc := ⟨[], [], none⟩

/-- One observable call. -/
def Proc.emit (p : Proc) (e : Event) : Proc :=
  { p with trace := p.trace ++ [e] }

/-- The statement `defer f()`: the call is pushed on the stack of deferred calls
and runs only when the surrounding function returns. -/
def Proc.defer (p : Proc) (e : Event) : Proc :=
  { p with deferred := e :: p.deferred }

/-- The call `os.Exit(code)`: the process terminates at once with the code;
deferred calls are not run. -/
def Proc.osExit (p : Proc) (code : Int) : Proc :=
  { p with exitCode := some code }

/-- The verb `%d` of `fmt` on an `int64`. -/
def fmtInt (i : Int) : String := toString i

/-! ## `main` -/

/-- The function `main`. Every branch ends in `os.Exit`, which ends the run
there; the closing brace of `main`, where the deferred calls would run, is never
reached. -/
def main (w : World) : Proc :=
  let redisHost := getConfig w "REDIS_HOST" "event-cache"
  let redisPort := getConfig w "REDIS_PORT" "6379"
  let redisAddr := redisHost ++ ":" ++ redisPort
  let stateKey := getConfig w "REDIS_STATE_KEY" "last_mc_seqno"
  let maxDelayStr := getConfig w "MAX_DELAY_SECONDS" "300"
  let p := Proc.start
  match parseInt maxDelayStr with
  | .error err =>
    ((p.emit (.write .stderr
      ("FAIL: Invalid MAX_DELAY_SECONDS value: " ++ numErrorText w maxDelayStr err ++ "\n"))).osExit 1)
  | .ok maxDelay =>
    let p := p.defer .cancel
    let p := p.emit (.newClient redisAddr)
    let p := p.defer .close
    let p := p.emit (.get stateKey)
    match w.get redisAddr stateKey with
    | .redisNil =>
      ((p.emit (.write .stderr
        ("FAIL: State key '" ++ stateKey ++ "' not found in Redis.\n"))).osExit 1)
    | .otherErr text =>
      ((p.emit (.write .stderr
        ("FAIL: Cannot get state from Redis: " ++ text ++ "\n"))).osExit 1)
    | .value stateJSON =>
      match w.unmarshal stateJSON with
      | .err text =>
        ((p.emit (.write .stderr
          ("FAIL: Cannot parse JSON state from key '" ++ stateKey ++ "': " ++ text ++ "\n"))).osExit 1)
      | .ok state =>
        if state.GenUtime = 0 then
          ((p.emit (.write .stderr
            ("FAIL: 'gen_utime' is missing or zero in state from key '" ++ stateKey ++ "'.\n"))).osExit 1)
        else
          let p := p.emit .timeNow
          let delay := subInt64 w.now state.GenUtime
          if delay < 0 then
            ((p.emit (.write .stderr
              ("FAIL: System clock seems to be behind the indexer's clock (delay: " ++ fmtInt delay
                ++ "). Check time synchronization.\n"))).osExit 1)
          else if delay > maxDelay then
            ((p.emit (.write .stderr
              ("FAIL: Indexer delay is " ++ fmtInt delay ++ " seconds (limit " ++ fmtInt maxDelay
                ++ ").\n"))).osExit 1)
          else
            ((p.emit (.write .stdout
              ("OK: Indexer delay is " ++ fmtInt delay ++ " seconds.\n"))).osExit 0)

/-- The address `host:port` the client is created with. -/
def World.redisAddr (w : World) : String :=
  getConfig w "REDIS_HOST" "event-cache" ++ ":" ++ getConfig w "REDIS_PORT" "6379"

/-- The resolved name of the state key. -/
def World.stateKey (w : World) : String := getConfig w "REDIS_STATE_KEY" "last_mc_seqno"

/-- The resolved text of the maximum delay. -/
def World.maxDelayStr (w : World) : String := getConfig w "MAX_DELAY_SECONDS" "300"

/-- The messages of a run: the writes of its trace, in order, each with its
stream. -/
def Proc.output (p : Proc) : List (Stream × String) :=
  p.trace.filterMap fun e =>
    match e with
    | .write stream text => some (stream, text)
    | _ => none

/-! ## Concrete worlds -/

/-- An environment given by a list of set variables. -/
def envOf (vars : List (String × String)) : String → Option String :=
  fun key => (vars.find? (fun kv => kv.1 == key)).map (fun kv => kv.2)

/-- A world with the given environment and clock, whose store holds a value
that decodes to the given `gen_utime`. -/
def worldWith (vars : List (String × String)) (now gen : Int) : World where
  lookupEnv := envOf vars
  get := fun _ _ => .value "state"
  unmarshal := fun _ => .ok ⟨gen⟩
  now := now
  quote := fun s => "\"" ++ s ++ "\""


/-- The default environment, the clock at 1000000200 and a record generated at
1000000000: the delay is 200, under the default limit of 300. -/
def freshWorld : World := worldWith [] 1000000200 1000000000

/-- The default environment, the clock at 1000000400 and a record generated at
1000000000: the delay is 400, over the default limit of 300. -/
def staleWorld : World := worldWith [] 1000000400 1000000000

/-- A limit of -10, the clock at 100 and a record generated at 105. -/
def negativeLimitWorld : World := worldWith [("MAX_DELAY_SECONDS", "-10")] 100 105

/-- The largest limit, the clock at -2 (before the epoch) and a record generated
at the largest `int64`. -/
def wrapWorld : World :=
  worldWith [("MAX_DELAY_SECONDS", "9223372036854775807")] (-2) 9223372036854775807

/-- The default environment, the clock at 100 and a record generated at 200. -/
def skewWorld : World := worldWith [] 100 200

/-- The default environment, the clock at 100 and a record with `gen_utime` -5. -/
def negativeGenWorld : World := worldWith [] 100 (-5)

/-- The default environment, the clock at 100 and a record with `gen_utime` 0. -/
def zeroGenWorld : World := worldWith [] 100 0

/-- The variable `REDIS_HOST` set to the empty string. -/
def emptyHostWorld : World := worldWith [("REDIS_HOST", "")] 1000000200 1000000000

/-- The variable `REDIS_HOST` set to `cache.internal`. -/
def customHostWorld : World := worldWith [("REDIS_HOST", "cache.internal")] 1000000200 1000000000

/-- The variable `MAX_DELAY_SECONDS` set to `abc`. -/
def badLimitWorld : World := worldWith [("MAX_DELAY_SECONDS", "abc")] 1000000200 1000000000

/-- The default environment and a store that does not hold the key. -/
def missingKeyWorld : World :=
  { freshWorld with get := fun _ _ => .redisNil }

/-- The default environment and a store that cannot be reached. -/
def unreachableWorld : World :=
  { freshWorld with get := fun _ _ => .otherErr "dial tcp: i/o timeout" }

/-! ## Vocabulary of the statements -/

/-- The opening words of the failure lines written after the configuration has
parsed. -/
def failHeads : List String :=
  ["FAIL: State key '",
   "FAIL: Cannot get state from Redis: ",
   "FAIL: Cannot parse JSON state from key '",
   "FAIL: 'gen_utime' is missing or zero in state from key '",
   "FAIL: System clock seems to be behind the indexer's clock (delay: ",
   "FAIL: Indexer delay is "]

/-- The number a list of decimal digits denotes when read after the number `acc`. -/
def decimalValue (cs : List Char) (acc : Nat) : Nat :=
  cs.foldl (fun a c => a * 10 + (c.toNat - 48)) acc

/-- Every character is a decimal digit. -/
def allDigits (cs : List Char) : Prop := ∀ c ∈ cs, 48 ≤ c.toNat ∧ c.toNat ≤ 57

/-! ## Arithmetic of `int64` -/

theorem wrapInt64_eq_self {x : Int} (h : isInt64 x) : wrapInt64 x = x := by
  unfold isInt64 minInt64 maxInt64 at h
  unfold wrapInt64
  omega

theorem isInt64_wrapInt64 (x : Int) : isInt64 (wrapInt64 x) := by
  unfold isInt64 minInt64 maxInt64 wrapInt64
  omega

/-! ## Texts -/

theorem append_ne_append_of_take_ne (n : Nat) (a b x y : String)
    (ha : n ≤ a.data.length) (hb : n ≤ b.data.length)
    (hne : a.data.take n ≠ b.data.take n) : a ++ x ≠ b ++ y := by
  intro h
  apply hne
  have h2 := congrArg (fun s => s.data.take n) h
  simp only [String.data_append] at h2
  rwa [List.take_append_of_le_length ha, List.take_append_of_le_length hb] at h2

/-! ## What `main` does once a record is decoded -/

theorem main_decoded (w : World) (maxDelay : Int) (stateJSON : String) (state : IndexerState)
    (hcfg : parseInt w.maxDelayStr = .ok maxDelay)
    (hget : w.get w.redisAddr w.stateKey = .value stateJSON)
    (hdec : w.unmarshal stateJSON = .ok state) :
    main w =
      if state.GenUtime = 0 then
        ⟨[.newClient w.redisAddr, .get w.stateKey, .write .stderr
          ("FAIL: 'gen_utime' is missing or zero in state from key '" ++ w.stateKey ++ "'.\n")],
          [.close, .cancel], some 1⟩
      else if subInt64 w.now state.GenUtime < 0 then
        ⟨[.newClient w.redisAddr, .get w.stateKey, .timeNow, .write .stderr
          ("FAIL: System clock seems to be behind the indexer's clock (delay: "
            ++ fmtInt (subInt64 w.now state.GenUtime) ++ "). Check time synchronization.\n")],
          [.close, .cancel], some 1⟩
      else if subInt64 w.now state.GenUtime > maxDelay then
        ⟨[.newClient w.redisAddr, .get w.stateKey, .timeNow, .write .stderr
          ("FAIL: Indexer delay is " ++ fmtInt (subInt64 w.now state.GenUtime) ++ " seconds (limit "
            ++ fmtInt maxDelay ++ ").\n")],
          [.close, .cancel], some 1⟩
      else
        ⟨[.newClient w.redisAddr, .get w.stateKey, .timeNow, .write .stdout
          ("OK: Indexer delay is " ++ fmtInt (subInt64 w.now state.GenUtime) ++ " seconds.\n")],
          [.close, .cancel], some 0⟩ := by
  unfold World.maxDelayStr at hcfg
  unfold World.redisAddr World.stateKey at hget
  unfold main
  simp only [hcfg, hget, hdec]
  unfold World.redisAddr World.stateKey
  split_ifs <;> rfl

/-! ## What `main` does at the earlier gates -/

theorem main_config_error (w : World) (err : NumErrKind)
    (hcfg : parseInt w.maxDelayStr = .error err) :
    main w =
      ⟨[.write .stderr ("FAIL: Invalid MAX_DELAY_SECONDS value: "
          ++ numErrorText w w.maxDelayStr err ++ "\n")], [], some 1⟩ := by
  unfold World.maxDelayStr at hcfg
  unfold main
  simp only [hcfg]
  rfl

theorem main_key_not_found (w : World) (maxDelay : Int)
    (hcfg : parseInt w.maxDelayStr = .ok maxDelay)
    (hget : w.get w.redisAddr w.stateKey = .redisNil) :
    main w =
      ⟨[.newClient w.redisAddr, .get w.stateKey, .write .stderr
          ("FAIL: State key '" ++ w.stateKey ++ "' not found in Redis.\n")],
        [.close, .cancel], some 1⟩ := by
  unfold World.maxDelayStr at hcfg
  unfold World.redisAddr World.stateKey at hget
  unfold main
  simp only [hcfg, hget]
  rfl

theorem main_store_error (w : World) (maxDelay : Int) (text : String)
    (hcfg : parseInt w.maxDelayStr = .ok maxDelay)
    (hget : w.get w.redisAddr w.stateKey = .otherErr text) :
    main w =
      ⟨[.newClient w.redisAddr, .get w.stateKey, .write .stderr
          ("FAIL: Cannot get state from Redis: " ++ text ++ "\n")],
        [.close, .cancel], some 1⟩ := by
  unfold World.maxDelayStr at hcfg
  unfold World.redisAddr World.stateKey at hget
  unfold main
  simp only [hcfg, hget]
  rfl

theorem main_unmarshal_error (w : World) (maxDelay : Int) (stateJSON text : String)
    (hcfg : parseInt w.maxDelayStr = .ok maxDelay)
    (hget : w.get w.redisAddr w.stateKey = .value stateJSON)
    (hdec : w.unmarshal stateJSON = .err text) :
    main w =
      ⟨[.newClient w.redisAddr, .get w.stateKey, .write .stderr
          ("FAIL: Cannot parse JSON state from key '" ++ w.stateKey ++ "': " ++ text ++ "\n")],
        [.close, .cancel], some 1⟩ := by
  unfold World.maxDelayStr at hcfg
  unfold World.redisAddr World.stateKey at hget
  unfold main
  simp only [hcfg, hget, hdec]
  rfl

/-- Every run whose configuration parses creates the client, issues the one
request, possibly reads the clock, writes one line and exits; the line is a
failure line on standard error with code 1, or the `OK` line on standard output
with code 0. -/
theorem main_after_config (w : World) (maxDelay : Int)
    (hcfg : parseInt w.maxDelayStr = .ok maxDelay) :
    ∃ pre stream head mid code,
      main w = ⟨[.newClient w.redisAddr, .get w.stateKey] ++ pre
                  ++ [.write stream (head ++ (mid ++ "\n"))], [.close, .cancel], some code⟩
        ∧ (pre = [] ∨ pre = [.timeNow])
        ∧ ((stream = .stderr ∧ code = 1 ∧ head ∈ failHeads)
            ∨ (stream = .stdout ∧ code = 0 ∧ head = "OK: Indexer delay is ")) := by
  cases hget : w.get w.redisAddr w.stateKey with
  | redisNil =>
    refine ⟨[], .stderr, "FAIL: State key '", w.stateKey ++ "' not found in Redis.", 1,
      ?_, Or.inl rfl, Or.inl ⟨rfl, rfl, by simp [failHeads]⟩⟩
    rw [main_key_not_found w maxDelay hcfg hget]
    simp only [String.append_assoc]
    rfl
  | otherErr text =>
    refine ⟨[], .stderr, "FAIL: Cannot get state from Redis: ", text, 1,
      ?_, Or.inl rfl, Or.inl ⟨rfl, rfl, by simp [failHeads]⟩⟩
    rw [main_store_error w maxDelay text hcfg hget]
    simp only [String.append_assoc]
    rfl
  | value stateJSON =>
    cases hdec : w.unmarshal stateJSON with
    | err text =>
      refine ⟨[], .stderr, "FAIL: Cannot parse JSON state from key '",
        w.stateKey ++ "': " ++ text, 1, ?_, Or.inl rfl, Or.inl ⟨rfl, rfl, by simp [failHeads]⟩⟩
      rw [main_unmarshal_error w maxDelay stateJSON text hcfg hget hdec]
      simp only [String.append_assoc]
      rfl
    | ok state =>
      rw [main_decoded w maxDelay stateJSON state hcfg hget hdec]
      split_ifs
      · refine ⟨[], .stderr, "FAIL: 'gen_utime' is missing or zero in state from key '",
          w.stateKey ++ "'.", 1, ?_, Or.inl rfl, Or.inl ⟨rfl, rfl, by simp [failHeads]⟩⟩
        simp only [String.append_assoc]
        rfl
      · refine ⟨[.timeNow], .stderr,
          "FAIL: System clock seems to be behind the indexer's clock (delay: ",
          fmtInt (subInt64 w.now state.GenUtime) ++ "). Check time synchronization.", 1,
          ?_, Or.inr rfl, Or.inl ⟨rfl, rfl, by simp [failHeads]⟩⟩
        simp only [String.append_assoc]
        rfl
      · refine ⟨[.timeNow], .stderr, "FAIL: Indexer delay is ",
          fmtInt (subInt64 w.now state.GenUtime) ++ " seconds (limit " ++ fmtInt maxDelay ++ ").",
          1, ?_, Or.inr rfl, Or.inl ⟨rfl, rfl, by simp [failHeads]⟩⟩
        simp only [String.append_assoc]
        rfl
      · refine ⟨[.timeNow], .stdout, "OK: Indexer delay is ",
          fmtInt (subInt64 w.now state.GenUtime) ++ " seconds.", 0,
          ?_, Or.inr rfl, Or.inr ⟨rfl, rfl, rfl⟩⟩
        simp only [String.append_assoc]
        rfl

theorem failHeads_split {head : String} (h : head ∈ failHeads) :
    ∃ tail, head = "FAIL:" ++ tail := by
  simp only [failHeads, List.mem_cons, List.mem_singleton, List.not_mem_nil, or_false] at h
  rcases h with h | h | h | h | h | h <;> subst h
  · exact ⟨" State key '", by decide⟩
  · exact ⟨" Cannot get state from Redis: ", by decide⟩
  · exact ⟨" Cannot parse JSON state from key '", by decide⟩
  · exact ⟨" 'gen_utime' is missing or zero in state from key '", by decide⟩
  · exact ⟨" System clock seems to be behind the indexer's clock (delay: ", by decide⟩
  · exact ⟨" Indexer delay is ", by decide⟩

theorem failHeads_ne_config {head : String} (h : head ∈ failHeads) (x y : String) :
    "FAIL: Invalid MAX_DELAY_SECONDS value" ++ x ≠ head ++ y := by
  simp only [failHeads, List.mem_cons, List.mem_singleton, List.not_mem_nil, or_false] at h
  rcases h with h | h | h | h | h | h <;> subst h <;>
    exact append_ne_append_of_take_ne 9 _ _ _ _ (by decide) (by decide) (by decide)

/-! ## The range of `ParseInt` -/

theorem parseInt_isInt64 {s : String} {m : Int} (h : parseInt s = .ok m) : isInt64 m := by
  unfold parseInt at h
  unfold isInt64 minInt64 maxInt64
  split at h
  · cases h
  · simp only at h
    split at h
    · cases h
    · cases h
    · split_ifs at h with h1 h2 h3
      · cases h
        simp only [h3, true_and, not_lt] at h2
        omega
      · cases h
        simp only [Bool.not_eq_true] at h3
        simp only [h3, Bool.not_false, true_and, not_le] at h1
        omega

/-! ## The clock-skew branch -/

/-- A record with a non-zero `gen_utime` above the clock, whose exact difference
`now - gen_utime` is an `int64`, takes the clock-skew branch. -/
theorem main_clock_skew_of_no_wrap (w : World) (maxDelay : Int) (stateJSON : String)
    (state : IndexerState)
    (hcfg : parseInt w.maxDelayStr = .ok maxDelay)
    (hget : w.get w.redisAddr w.stateKey = .value stateJSON)
    (hdec : w.unmarshal stateJSON = .ok state)
    (hnz : state.GenUtime ≠ 0)
    (hmin : minInt64 ≤ w.now - state.GenUtime)
    (hlt : w.now < state.GenUtime) :
    (main w).output =
        [(.stderr, "FAIL: System clock seems to be behind the indexer's clock (delay: "
          ++ fmtInt (w.now - state.GenUtime) ++ "). Check time synchronization.\n")]
      ∧ (main w).exitCode = some 1 := by
  have hsub : subInt64 w.now state.GenUtime = w.now - state.GenUtime := by
    apply wrapInt64_eq_self
    unfold isInt64 minInt64 maxInt64 at *
    omega
  rw [main_decoded w maxDelay stateJSON state hcfg hget hdec, hsub, if_neg hnz,
    if_pos (by omega)]
  exact ⟨rfl, rfl⟩

/-- Before the epoch the `int64` subtraction can wrap: with the clock at -2 and
`gen_utime` the largest `int64`, the computed delay is the largest `int64`. -/
theorem subInt64_wraps_before_epoch :
    wrapWorld.now = -2 ∧ subInt64 wrapWorld.now 9223372036854775807 = 9223372036854775807 := by
  refine ⟨rfl, by decide⟩

/-! ## The freshness verdicts -/

/-- C1: when the configuration parses, the store returns a value and the value
decodes to a record with a non-zero `gen_utime`, and `gen_utime ≤ now` with the
exact difference `now - gen_utime` at most the limit, the run writes the one line
`OK: Indexer delay is <now - gen_utime> seconds.` on standard output and exits
with code 0. The bound is inclusive. -/
theorem main_ok_of_delay_within_limit (w : World) (maxDelay : Int) (stateJSON : String)
    (state : IndexerState)
    (hcfg : parseInt w.maxDelayStr = .ok maxDelay)
    (hget : w.get w.redisAddr w.stateKey = .value stateJSON)
    (hdec : w.unmarshal stateJSON = .ok state)
    (hnz : state.GenUtime ≠ 0)
    (hge : state.GenUtime ≤ w.now)
    (hle : w.now - state.GenUtime ≤ maxDelay) :
    (main w).output =
        [(.stdout, "OK: Indexer delay is " ++ fmtInt (w.now - state.GenUtime) ++ " seconds.\n")]
      ∧ (main w).exitCode = some 0 := by
  have hm := parseInt_isInt64 hcfg
  have hsub : subInt64 w.now state.GenUtime = w.now - state.GenUtime := by
    apply wrapInt64_eq_self
    unfold isInt64 minInt64 maxInt64 at *
    omega
  rw [main_decoded w maxDelay stateJSON state hcfg hget hdec, hsub, if_neg hnz,
    if_neg (by omega), if_neg (by omega)]
  exact ⟨rfl, rfl⟩

/-- Witness of C1: `gen_utime` 1000000000, the clock at 1000000200 and the default
limit 300 give `OK` with a delay of 200 and exit code 0. -/
theorem main_ok_of_delay_within_limit_witness :
    parseInt freshWorld.maxDelayStr = .ok 300
      ∧ freshWorld.get freshWorld.redisAddr freshWorld.stateKey = .value "state"
      ∧ freshWorld.unmarshal "state" = .ok ⟨1000000000⟩
      ∧ freshWorld.now = 1000000200
      ∧ (main freshWorld).output = [(.stdout, "OK: Indexer delay is 200 seconds.\n")]
      ∧ (main freshWorld).exitCode = some 0 :=
  ⟨rfl, rfl, rfl, rfl,
    main_ok_of_delay_within_limit freshWorld 300 "state" ⟨1000000000⟩ rfl rfl rfl
      (by decide) (by decide) (by decide)⟩

/-- Witness of C1 at the boundary: a delay equal to the limit is healthy. -/
theorem main_ok_at_limit :
    (main (worldWith [] 1000000300 1000000000)).output
        = [(.stdout, "OK: Indexer delay is 300 seconds.\n")]
      ∧ (main (worldWith [] 1000000300 1000000000)).exitCode = some 0 :=
  ⟨rfl, rfl⟩

/-- Counterexample to C2: with the limit -10, the clock at 100 and `gen_utime`
105, the difference -5 is above the limit, yet the run reports the clock-skew
failure and not the delay-exceeds-limit failure. -/
theorem main_negative_delay_over_limit_is_skew :
    parseInt negativeLimitWorld.maxDelayStr = .ok (-10)
      ∧ negativeLimitWorld.get negativeLimitWorld.redisAddr negativeLimitWorld.stateKey
          = .value "state"
      ∧ negativeLimitWorld.unmarshal "state" = .ok ⟨105⟩
      ∧ negativeLimitWorld.now = 100
      ∧ (100 : Int) - 105 > -10
      ∧ (main negativeLimitWorld).output
          = [(.stderr, "FAIL: System clock seems to be behind the indexer's clock (delay: -5). Check time synchronization.\n")]
      ∧ (main negativeLimitWorld).output
          ≠ [(.stderr, "FAIL: Indexer delay is -5 seconds (limit -10).\n")] := by
  refine ⟨rfl, rfl, rfl, rfl, by decide, rfl, by decide⟩

/-- C2, amended: when the configuration parses, the store returns a value and the
value decodes to a record with a non-zero `gen_utime`, and the delay
`now - gen_utime` computed on `int64` is not negative and is above the limit, the
run writes the one line `FAIL: Indexer delay is <delay> seconds (limit <limit>).`
on standard error and exits with code 1. The computed delay is the exact
difference whenever that difference is an `int64`. -/
theorem main_fail_of_delay_over_limit (w : World) (maxDelay : Int) (stateJSON : String)
    (state : IndexerState)
    (hcfg : parseInt w.maxDelayStr = .ok maxDelay)
    (hget : w.get w.redisAddr w.stateKey = .value stateJSON)
    (hdec : w.unmarshal stateJSON = .ok state)
    (hnz : state.GenUtime ≠ 0)
    (hpos : 0 ≤ subInt64 w.now state.GenUtime)
    (hgt : maxDelay < subInt64 w.now state.GenUtime) :
    (main w).output =
        [(.stderr, "FAIL: Indexer delay is " ++ fmtInt (subInt64 w.now state.GenUtime)
          ++ " seconds (limit " ++ fmtInt maxDelay ++ ").\n")]
      ∧ (main w).exitCode = some 1
      ∧ (isInt64 (w.now - state.GenUtime) →
          subInt64 w.now state.GenUtime = w.now - state.GenUtime) := by
  rw [main_decoded w maxDelay stateJSON state hcfg hget hdec, if_neg hnz,
    if_neg (by omega), if_pos (by omega)]
  exact ⟨rfl, rfl, wrapInt64_eq_self⟩

/-- Witness of C2: `gen_utime` 1000000000, the clock at 1000000400 and the default
limit 300 give the failure that reports 400 and 300, with exit code 1. -/
theorem main_fail_of_delay_over_limit_witness :
    parseInt staleWorld.maxDelayStr = .ok 300
      ∧ staleWorld.get staleWorld.redisAddr staleWorld.stateKey = .value "state"
      ∧ staleWorld.unmarshal "state" = .ok ⟨1000000000⟩
      ∧ subInt64 staleWorld.now 1000000000 = 400
      ∧ (main staleWorld).output
          = [(.stderr, "FAIL: Indexer delay is 400 seconds (limit 300).\n")]
      ∧ (main staleWorld).exitCode = some 1 :=
  ⟨rfl, rfl, rfl, by decide,
    (main_fail_of_delay_over_limit staleWorld 300 "state" ⟨1000000000⟩ rfl rfl rfl
      (by decide) (by decide) (by decide)).1,
    (main_fail_of_delay_over_limit staleWorld 300 "state" ⟨1000000000⟩ rfl rfl rfl
      (by decide) (by decide) (by decide)).2.1⟩

/-- C3: when the configuration parses, the store returns a value and the value
decodes to a record whose `gen_utime` (an `int64`) is above the clock, the clock
being a time at or after the epoch, then for every limit the run writes the one
clock-skew line on standard error, reporting the negative difference
`now - gen_utime`, and exits with code 1; it writes nothing on standard output
and the delay it reports is not zero. -/
theorem main_fail_of_clock_skew (w : World) (maxDelay : Int) (stateJSON : String)
    (state : IndexerState)
    (hcfg : parseInt w.maxDelayStr = .ok maxDelay)
    (hget : w.get w.redisAddr w.stateKey = .value stateJSON)
    (hdec : w.unmarshal stateJSON = .ok state)
    (hnow : 0 ≤ w.now)
    (hgen : isInt64 state.GenUtime)
    (hlt : w.now < state.GenUtime) :
    (main w).output =
        [(.stderr, "FAIL: System clock seems to be behind the indexer's clock (delay: "
          ++ fmtInt (w.now - state.GenUtime) ++ "). Check time synchronization.\n")]
      ∧ (main w).exitCode = some 1
      ∧ w.now - state.GenUtime < 0
      ∧ (∀ text, (Stream.stdout, text) ∉ (main w).output) := by
  have hmin : minInt64 ≤ w.now - state.GenUtime := by
    unfold isInt64 minInt64 maxInt64 at *
    omega
  have h := main_clock_skew_of_no_wrap w maxDelay stateJSON state hcfg hget hdec
    (by omega) hmin hlt
  refine ⟨h.1, h.2, by omega, ?_⟩
  intro text hmem
  rw [h.1] at hmem
  simp at hmem

/-- Witness of C3: the clock at 100 and `gen_utime` 200 give the clock-skew
failure that reports -100, with exit code 1. -/
theorem main_fail_of_clock_skew_witness :
    parseInt skewWorld.maxDelayStr = .ok 300
      ∧ skewWorld.get skewWorld.redisAddr skewWorld.stateKey = .value "state"
      ∧ skewWorld.unmarshal "state" = .ok ⟨200⟩
      ∧ skewWorld.now = 100
      ∧ (main skewWorld).output
          = [(.stderr, "FAIL: System clock seems to be behind the indexer's clock (delay: -100). Check time synchronization.\n")]
      ∧ (main skewWorld).exitCode = some 1 :=
  ⟨rfl, rfl, rfl, rfl,
    (main_fail_of_clock_skew skewWorld 300 "state" ⟨200⟩ rfl rfl rfl
      (by decide) (by decide) (by decide)).1,
    (main_fail_of_clock_skew skewWorld 300 "state" ⟨200⟩ rfl rfl rfl
      (by decide) (by decide) (by decide)).2.1⟩

/-! ## The validation gate -/

/-- Counterexample to C4: a record with `gen_utime` -5 is not rejected; with the
clock at 100 the run reads the clock, computes the delay 105 and reports
success. -/
theorem main_negative_gen_utime_passes_gate :
    parseInt negativeGenWorld.maxDelayStr = .ok 300
      ∧ negativeGenWorld.get negativeGenWorld.redisAddr negativeGenWorld.stateKey
          = .value "state"
      ∧ negativeGenWorld.unmarshal "state" = .ok ⟨-5⟩
      ∧ ¬ (0 < (-5 : Int))
      ∧ Event.timeNow ∈ (main negativeGenWorld).trace
      ∧ (main negativeGenWorld).output = [(.stdout, "OK: Indexer delay is 105 seconds.\n")]
      ∧ (main negativeGenWorld).exitCode = some 0 := by
  refine ⟨rfl, rfl, rfl, by decide, by decide, rfl, rfl⟩

/-- C4, amended: a run reaches the freshness evaluation (it reads the clock)
exactly when the configuration parses, the store returns a value and the value
decodes to a record whose `gen_utime` is not zero. A zero (or absent) `gen_utime`
never leads to a freshness verdict; a negative one does. -/
theorem main_reads_clock_iff (w : World) :
    Event.timeNow ∈ (main w).trace ↔
      ∃ maxDelay stateJSON state,
        parseInt w.maxDelayStr = .ok maxDelay
          ∧ w.get w.redisAddr w.stateKey = .value stateJSON
          ∧ w.unmarshal stateJSON = .ok state
          ∧ state.GenUtime ≠ 0 := by
  constructor
  · intro h
    unfold main at h
    simp only at h
    split at h
    · simp [Proc.osExit, Proc.emit, Proc.start] at h
    · rename_i maxDelay hcfg
      split at h
      · simp [Proc.osExit, Proc.emit, Proc.start, Proc.defer] at h
      · simp [Proc.osExit, Proc.emit, Proc.start, Proc.defer] at h
      · rename_i stateJSON hget
        split at h
        · simp [Proc.osExit, Proc.emit, Proc.start, Proc.defer] at h
        · rename_i state hdec
          by_cases hz : state.GenUtime = 0
          · simp [hz, Proc.osExit, Proc.emit, Proc.start, Proc.defer] at h
          · exact ⟨maxDelay, stateJSON, state, hcfg, hget, hdec, hz⟩
  · rintro ⟨maxDelay, stateJSON, state, hcfg, hget, hdec, hz⟩
    rw [main_decoded w maxDelay stateJSON state hcfg hget hdec, if_neg hz]
    split_ifs <;> simp

/-- C5: when the configuration parses, the store returns a value and the value
decodes to a record whose `gen_utime` is 0, the run writes the one line
`FAIL: 'gen_utime' is missing or zero in state from key '<key>'.` on standard
error and exits with code 1, whatever the clock and the limit; the clock is
never read. -/
theorem main_fail_of_zero_gen_utime (w : World) (maxDelay : Int) (stateJSON : String)
    (state : IndexerState)
    (hcfg : parseInt w.maxDelayStr = .ok maxDelay)
    (hget : w.get w.redisAddr w.stateKey = .value stateJSON)
    (hdec : w.unmarshal stateJSON = .ok state)
    (hz : state.GenUtime = 0) :
    (main w).output =
        [(.stderr, "FAIL: 'gen_utime' is missing or zero in state from key '"
          ++ w.stateKey ++ "'.\n")]
      ∧ (main w).exitCode = some 1
      ∧ Event.timeNow ∉ (main w).trace := by
  rw [main_decoded w maxDelay stateJSON state hcfg hget hdec, if_pos hz]
  exact ⟨rfl, rfl, by simp⟩

/-- Witness of C5: a record with `gen_utime` 0 under the default environment. -/
theorem main_fail_of_zero_gen_utime_witness :
    parseInt zeroGenWorld.maxDelayStr = .ok 300
      ∧ zeroGenWorld.get zeroGenWorld.redisAddr zeroGenWorld.stateKey = .value "state"
      ∧ zeroGenWorld.unmarshal "state" = .ok ⟨0⟩
      ∧ (main zeroGenWorld).output
          = [(.stderr, "FAIL: 'gen_utime' is missing or zero in state from key 'last_mc_seqno'.\n")]
      ∧ (main zeroGenWorld).exitCode = some 1 :=
  ⟨rfl, rfl, rfl,
    (main_fail_of_zero_gen_utime zeroGenWorld 300 "state" ⟨0⟩ rfl rfl rfl rfl).1,
    (main_fail_of_zero_gen_utime zeroGenWorld 300 "state" ⟨0⟩ rfl rfl rfl rfl).2.1⟩

/-! ## Configuration -/

/-- Counterexample to C6: with `REDIS_HOST` set to the empty string, `getConfig`
returns the empty string, not the fallback `event-cache`. -/
theorem getConfig_empty_value_is_kept :
    emptyHostWorld.lookupEnv "REDIS_HOST" = some ""
      ∧ getConfig emptyHostWorld "REDIS_HOST" "event-cache" = ""
      ∧ getConfig emptyHostWorld "REDIS_HOST" "event-cache" ≠ "event-cache" := by
  refine ⟨rfl, rfl, by decide⟩

/-- C6, amended: `getConfig key fallback` is the fallback when the variable `key`
is not set, and the value of the variable when it is set, the empty string
included; with the four variables not set the settings are `event-cache`, `6379`,
`last_mc_seqno` and `300`, the last parsing to the limit 300. -/
theorem getConfig_spec (w : World) (key fallback : String) :
    (w.lookupEnv key = none → getConfig w key fallback = fallback)
      ∧ (∀ value, w.lookupEnv key = some value → getConfig w key fallback = value)
      ∧ (w.lookupEnv "REDIS_HOST" = none → w.lookupEnv "REDIS_PORT" = none →
          w.lookupEnv "REDIS_STATE_KEY" = none → w.lookupEnv "MAX_DELAY_SECONDS" = none →
          w.redisAddr = "event-cache:6379" ∧ w.stateKey = "last_mc_seqno"
            ∧ w.maxDelayStr = "300" ∧ parseInt w.maxDelayStr = .ok 300) := by
  refine ⟨?_, ?_, ?_⟩
  · intro h
    simp [getConfig, h]
  · intro value h
    simp [getConfig, h]
  · intro h1 h2 h3 h4
    have e1 : w.redisAddr = "event-cache:6379" := by
      simp only [World.redisAddr, getConfig, h1, h2]
      rfl
    have e2 : w.stateKey = "last_mc_seqno" := by
      simp only [World.stateKey, getConfig, h3]
    have e3 : w.maxDelayStr = "300" := by
      simp only [World.maxDelayStr, getConfig, h4]
    refine ⟨e1, e2, e3, ?_⟩
    rw [e3]
    rfl

/-- Witness of C6: the fallback under an environment without the variable, the
value under an environment that sets it, and the four defaults. -/
theorem getConfig_spec_witness :
    getConfig freshWorld "REDIS_HOST" "event-cache" = "event-cache"
      ∧ getConfig customHostWorld "REDIS_HOST" "event-cache" = "cache.internal"
      ∧ (freshWorld.redisAddr = "event-cache:6379" ∧ freshWorld.stateKey = "last_mc_seqno"
          ∧ freshWorld.maxDelayStr = "300" ∧ parseInt freshWorld.maxDelayStr = .ok 300) :=
  ⟨(getConfig_spec freshWorld "REDIS_HOST" "event-cache").1 rfl,
    (getConfig_spec customHostWorld "REDIS_HOST" "event-cache").2.1 "cache.internal" rfl,
    (getConfig_spec freshWorld "REDIS_HOST" "event-cache").2.2 rfl rfl rfl rfl⟩

/-! ## The connection -/

/-- C7 (the code departs from it): no run of `main` ever executes `rdb.Close()`.
In the healthy run the client is created, the process exits with code 0 after
the `OK` line, and the deferred `Close` is still pending at exit. -/
theorem main_never_closes :
    (∀ w : World, Event.close ∉ (main w).trace)
      ∧ Event.newClient "event-cache:6379" ∈ (main freshWorld).trace
      ∧ (main freshWorld).trace
          = [.newClient "event-cache:6379", .get "last_mc_seqno", .timeNow,
              .write .stdout "OK: Indexer delay is 200 seconds.\n"]
      ∧ (main freshWorld).deferred = [.close, .cancel]
      ∧ (main freshWorld).exitCode = some 0 := by
  refine ⟨?_, by decide, rfl, rfl, rfl⟩
  intro w
  unfold main
  simp only
  split
  · simp [Proc.osExit, Proc.emit, Proc.start]
  · split
    · simp [Proc.osExit, Proc.emit, Proc.start, Proc.defer]
    · simp [Proc.osExit, Proc.emit, Proc.start, Proc.defer]
    · split
      · simp [Proc.osExit, Proc.emit, Proc.start, Proc.defer]
      · split_ifs <;> simp [Proc.osExit, Proc.emit, Proc.start, Proc.defer]

/-! ## The configuration gate and the report -/

/-- C8: when the resolved `MAX_DELAY_SECONDS` text does not parse, the run consists
of the one write of the `FAIL: Invalid MAX_DELAY_SECONDS value` line on standard
error and the exit with code 1: no client is created and no request is issued.
When the text parses, no line of the run opens with
`FAIL: Invalid MAX_DELAY_SECONDS value`. -/
theorem main_config_gate (w : World) :
    (∀ err, parseInt w.maxDelayStr = .error err →
        (main w).trace = [.write .stderr ("FAIL: Invalid MAX_DELAY_SECONDS value: "
            ++ numErrorText w w.maxDelayStr err ++ "\n")]
          ∧ (main w).exitCode = some 1
          ∧ (∀ addr, Event.newClient addr ∉ (main w).trace)
          ∧ (∀ key, Event.get key ∉ (main w).trace))
      ∧ (∀ maxDelay, parseInt w.maxDelayStr = .ok maxDelay →
          ∀ stream rest,
            (stream, "FAIL: Invalid MAX_DELAY_SECONDS value" ++ rest) ∉ (main w).output) := by
  constructor
  · intro err hcfg
    rw [main_config_error w err hcfg]
    simp
  · intro maxDelay hcfg stream rest hmem
    obtain ⟨pre, stream2, head, mid, code, hmain, hpre, hshape⟩ := main_after_config w maxDelay hcfg
    rw [hmain] at hmem
    have hout : (stream, "FAIL: Invalid MAX_DELAY_SECONDS value" ++ rest)
        = (stream2, head ++ (mid ++ "\n")) := by
      rcases hpre with rfl | rfl <;> simpa [Proc.output] using hmem
    have htext := congrArg Prod.snd hout
    simp only at htext
    rcases hshape with ⟨_, _, hhead⟩ | ⟨_, _, hhead⟩
    · exact failHeads_ne_config hhead _ _ htext
    · subst hhead
      exact append_ne_append_of_take_ne 2 _ _ _ _ (by decide) (by decide) (by decide) htext

/-- Witness of C8: `MAX_DELAY_SECONDS=abc` ends the run at the configuration gate;
the default `300` raises no configuration error. -/
theorem main_config_gate_witness :
    parseInt badLimitWorld.maxDelayStr = .error .ErrSyntax
      ∧ (main badLimitWorld).trace = [.write .stderr
          "FAIL: Invalid MAX_DELAY_SECONDS value: strconv.ParseInt: parsing \"abc\": invalid syntax\n"]
      ∧ (main badLimitWorld).exitCode = some 1
      ∧ parseInt freshWorld.maxDelayStr = .ok 300
      ∧ (Stream.stderr, "FAIL: Invalid MAX_DELAY_SECONDS value" ++ ": x\n")
          ∉ (main freshWorld).output :=
  ⟨rfl, ((main_config_gate badLimitWorld).1 .ErrSyntax rfl).1,
    ((main_config_gate badLimitWorld).1 .ErrSyntax rfl).2.1, rfl,
    (main_config_gate freshWorld).2 300 rfl .stderr ": x\n"⟩

/-- C9: every run writes exactly one message, as its last observable call, and
exits: either a line that opens with `OK:` on standard output with code 0, or a
line that opens with `FAIL:` on standard error with code 1. The line of a run
whose key is not found differs from the line of every run whose store fails in
another way. -/
theorem main_reports_once :
    (∀ w : World, ∃ stream text code,
      (main w).output = [(stream, text)]
        ∧ (main w).trace.getLast? = some (.write stream text)
        ∧ (main w).exitCode = some code
        ∧ ((stream = .stdout ∧ code = 0 ∧ ∃ body, text = "OK:" ++ body ++ "\n")
            ∨ (stream = .stderr ∧ code = 1 ∧ ∃ body, text = "FAIL:" ++ body ++ "\n")))
      ∧ (∀ (w₁ w₂ : World) (m₁ m₂ : Int) (text : String),
          parseInt w₁.maxDelayStr = .ok m₁ → parseInt w₂.maxDelayStr = .ok m₂ →
          w₁.get w₁.redisAddr w₁.stateKey = .redisNil →
          w₂.get w₂.redisAddr w₂.stateKey = .otherErr text →
          (main w₁).output ≠ (main w₂).output) := by
  constructor
  · intro w
    cases hcfg : parseInt w.maxDelayStr with
    | error err =>
      refine ⟨.stderr, "FAIL: Invalid MAX_DELAY_SECONDS value: "
        ++ numErrorText w w.maxDelayStr err ++ "\n", 1, ?_, ?_, ?_, Or.inr ⟨rfl, rfl,
        " Invalid MAX_DELAY_SECONDS value: " ++ numErrorText w w.maxDelayStr err, ?_⟩⟩
      · rw [main_config_error w err hcfg]
        rfl
      · rw [main_config_error w err hcfg]
        rfl
      · rw [main_config_error w err hcfg]
      · simp only [← String.append_assoc]
        rfl
    | ok maxDelay =>
      obtain ⟨pre, stream, head, mid, code, hmain, hpre, hshape⟩ :=
        main_after_config w maxDelay hcfg
      refine ⟨stream, head ++ (mid ++ "\n"), code, ?_, ?_, ?_, ?_⟩
      · rw [hmain]
        rcases hpre with rfl | rfl <;> simp [Proc.output]
      · rw [hmain]
        rcases hpre with rfl | rfl <;> simp
      · rw [hmain]
      · rcases hshape with ⟨hs, hc, hhead⟩ | ⟨hs, hc, hhead⟩
        · obtain ⟨tail, htail⟩ := failHeads_split hhead
          refine Or.inr ⟨hs, hc, tail ++ mid, ?_⟩
          rw [htail]
          simp only [String.append_assoc]
        · refine Or.inl ⟨hs, hc, " Indexer delay is " ++ mid, ?_⟩
          rw [hhead]
          simp only [← String.append_assoc]
          rfl
  · intro w₁ w₂ m₁ m₂ text h₁ h₂ hnil herr heq
    rw [main_key_not_found w₁ m₁ h₁ hnil, main_store_error w₂ m₂ text h₂ herr] at heq
    simp only [Proc.output, List.filterMap_cons, List.filterMap_nil, List.cons.injEq,
      Prod.mk.injEq, true_and, and_true, String.append_assoc] at heq
    exact append_ne_append_of_take_ne 7 _ _ _ _ (by decide) (by decide) (by decide) heq

/-- Witness of C9: the healthy run writes the one `OK` line and exits with 0; the
run whose key is missing and the run whose store times out write different
lines. -/
theorem main_reports_once_witness :
    (∃ stream text code,
        (main freshWorld).output = [(stream, text)]
          ∧ (main freshWorld).trace.getLast? = some (.write stream text)
          ∧ (main freshWorld).exitCode = some code
          ∧ ((stream = .stdout ∧ code = 0 ∧ ∃ body, text = "OK:" ++ body ++ "\n")
              ∨ (stream = .stderr ∧ code = 1 ∧ ∃ body, text = "FAIL:" ++ body ++ "\n")))
      ∧ (main missingKeyWorld).output
          = [(.stderr, "FAIL: State key 'last_mc_seqno' not found in Redis.\n")]
      ∧ (main unreachableWorld).output
          = [(.stderr, "FAIL: Cannot get state from Redis: dial tcp: i/o timeout\n")]
      ∧ (main missingKeyWorld).output ≠ (main unreachableWorld).output :=
  ⟨main_reports_once.1 freshWorld, rfl, rfl,
    main_reports_once.2 missingKeyWorld unreachableWorld 300 300 "dial tcp: i/o timeout"
      rfl rfl rfl rfl⟩


/-! ## `ParseInt` reads back what `%d` prints -/

theorem le_decimalValue (cs : List Char) (acc : Nat) : acc ≤ decimalValue cs acc := by
  induction cs generalizing acc with
  | nil => exact le_refl _
  | cons c cs ih =>
    have := ih (acc * 10 + (c.toNat - 48))
    simp only [decimalValue, List.foldl_cons] at this ⊢
    omega

theorem parseUintLoop_digits (cs : List Char) (acc : Nat) (hd : allDigits cs)
    (hb : decimalValue cs acc ≤ 18446744073709551615) :
    parseUintLoop cs acc = .ok (decimalValue cs acc) := by
  induction cs generalizing acc with
  | nil => rfl
  | cons c cs ih =>
    have hc := hd c (List.mem_cons_self c cs)
    have hcs : allDigits cs := fun x hx => hd x (List.mem_cons_of_mem c hx)
    have hstep : decimalValue (c :: cs) acc = decimalValue cs (acc * 10 + (c.toNat - 48)) := rfl
    rw [hstep] at hb ⊢
    have hmono := le_decimalValue cs (acc * 10 + (c.toNat - 48))
    have hv : digitVal c = some (c.toNat - 48) := by simp [digitVal, hc]
    rw [parseUintLoop, hv]
    simp only
    rw [if_neg (by omega), if_neg (by omega)]
    exact ih _ hcs hb

theorem digitChar_toNat {d : Nat} (h : d < 10) : (Nat.digitChar d).toNat = d + 48 := by
  interval_cases d <;> rfl

theorem toDigitsCore_spec (fuel n : Nat) (ds : List Char) (hf : n < fuel) (hd : allDigits ds) :
    allDigits (Nat.toDigitsCore 10 fuel n ds)
      ∧ decimalValue (Nat.toDigitsCore 10 fuel n ds) 0 = decimalValue ds n
      ∧ Nat.toDigitsCore 10 fuel n ds ≠ [] := by
  induction fuel generalizing n ds with
  | zero => omega
  | succ fuel ih =>
    have hlt : n % 10 < 10 := Nat.mod_lt _ (by decide)
    have hchar := digitChar_toNat hlt
    have hd2 : allDigits (Nat.digitChar (n % 10) :: ds) := by
      intro c hc
      rcases List.mem_cons.mp hc with rfl | hc
      · omega
      · exact hd c hc
    have hval : decimalValue (Nat.digitChar (n % 10) :: ds) (n / 10) = decimalValue ds n := by
      simp only [decimalValue, List.foldl_cons, hchar]
      congr 1
      omega
    unfold Nat.toDigitsCore
    simp only
    split_ifs with h0
    · refine ⟨hd2, ?_, List.cons_ne_nil _ _⟩
      have := hval
      rw [h0] at this
      exact this
    · obtain ⟨h1, h2, h3⟩ := ih (n / 10) (Nat.digitChar (n % 10) :: ds) (by omega) hd2
      exact ⟨h1, h2.trans hval, h3⟩

theorem repr_data (n : Nat) :
    allDigits (Nat.repr n).data ∧ decimalValue (Nat.repr n).data 0 = n
      ∧ (Nat.repr n).data ≠ [] := by
  have h := toDigitsCore_spec (n + 1) n [] (by omega) (by intro c hc; cases hc)
  exact h

theorem parseUint_repr (n : Nat) (hn : n ≤ 18446744073709551615) :
    parseUint (Nat.repr n).data = .ok n := by
  obtain ⟨h1, h2, h3⟩ := repr_data n
  unfold parseUint
  split
  · contradiction
  · rw [parseUintLoop_digits _ 0 h1 (by omega), h2]

/-- The text `%d` prints for an `int64` parses back to it. -/
theorem parseInt_fmtInt (m : Int) (hm : isInt64 m) : parseInt (fmtInt m) = .ok m := by
  unfold isInt64 minInt64 maxInt64 at hm
  cases m with
  | ofNat n =>
    simp only [Int.ofNat_eq_coe] at hm
    obtain ⟨h1, h2, h3⟩ := repr_data n
    have hp := parseUint_repr n (by omega)
    have hs : fmtInt (Int.ofNat n) = Nat.repr n := rfl
    rw [hs]
    unfold parseInt
    split
    · contradiction
    · rename_i c cs heq
      have hc := h1 c (by rw [heq]; exact List.mem_cons_self c cs)
      have hplus : c ≠ '+' := by
        rintro rfl
        revert hc
        decide
      have hminus : c ≠ '-' := by
        rintro rfl
        revert hc
        decide
      simp only [hplus, hminus, if_false, ← heq, hp, decide_False]
      simp only [Bool.not_false, true_and, Bool.false_eq_true, false_and, if_false]
      rw [if_neg (by omega)]
      rfl
  | negSucc k =>
    have hk : k + 1 ≤ 9223372036854775808 := by
      have := Int.negSucc_eq k
      omega
    have hp := parseUint_repr (k + 1) (by omega)
    have hs : (fmtInt (Int.negSucc k)).data = '-' :: (Nat.repr (k + 1)).data := rfl
    unfold parseInt
    rw [hs]
    have hplus : ('-' = '+') = False := by decide
    simp only [hplus, if_false, if_true, hp, decide_True, Bool.not_true, Bool.false_eq_true,
      false_and, true_and]
    rw [if_neg (by omega)]
    rfl

/-- A run reports success (it exits with code 0, or writes on standard output)
exactly when the configuration parses, the store returns a value, the value
decodes to a record with a non-zero `gen_utime`, and the delay computed on
`int64` lies between 0 and the limit. -/
theorem main_success_iff (w : World) :
    ((main w).exitCode = some 0 ∨ ∃ text, (Stream.stdout, text) ∈ (main w).output) ↔
      ∃ maxDelay stateJSON state,
        parseInt w.maxDelayStr = .ok maxDelay
          ∧ w.get w.redisAddr w.stateKey = .value stateJSON
          ∧ w.unmarshal stateJSON = .ok state
          ∧ state.GenUtime ≠ 0
          ∧ 0 ≤ subInt64 w.now state.GenUtime
          ∧ subInt64 w.now state.GenUtime ≤ maxDelay := by
  constructor
  · intro hs
    cases hcfg : parseInt w.maxDelayStr with
    | error err =>
      rw [main_config_error w err hcfg] at hs
      simp [Proc.output] at hs
    | ok maxDelay =>
      cases hget : w.get w.redisAddr w.stateKey with
      | redisNil =>
        rw [main_key_not_found w maxDelay hcfg hget] at hs
        simp [Proc.output] at hs
      | otherErr text =>
        rw [main_store_error w maxDelay text hcfg hget] at hs
        simp [Proc.output] at hs
      | value stateJSON =>
        cases hdec : w.unmarshal stateJSON with
        | err text =>
          rw [main_unmarshal_error w maxDelay stateJSON text hcfg hget hdec] at hs
          simp [Proc.output] at hs
        | ok state =>
          rw [main_decoded w maxDelay stateJSON state hcfg hget hdec] at hs
          split_ifs at hs with h1 h2 h3
          · simp [Proc.output] at hs
          · simp [Proc.output] at hs
          · simp [Proc.output] at hs
          · exact ⟨maxDelay, stateJSON, state, rfl, rfl, hdec, h1, by omega, by omega⟩
  · rintro ⟨maxDelay, stateJSON, state, hcfg, hget, hdec, hnz, h0, hle⟩
    rw [main_decoded w maxDelay stateJSON state hcfg hget hdec, if_neg hnz, if_neg (by omega),
      if_neg (by omega)]
    exact Or.inl rfl

/-! ## Soundness of the healthy verdict -/

/-- C10: when the configuration parses, the store returns a value and the value
decodes to a record, with a clock that is not negative and `int64` operands, a
run that reports success (exit code 0, or a line on standard output) has a
non-zero `gen_utime` and an exact difference `now - gen_utime` between 0 and the
limit. A negative `int64` limit, written in decimal, is accepted by
`ParseInt`; and no run whose limit is negative reports success: it exits with
code 1 and writes nothing on standard output. -/
theorem main_ok_sound :
    (∀ (w : World) (maxDelay : Int) (stateJSON : String) (state : IndexerState),
        parseInt w.maxDelayStr = .ok maxDelay →
        w.get w.redisAddr w.stateKey = .value stateJSON →
        w.unmarshal stateJSON = .ok state →
        0 ≤ w.now → isInt64 w.now → isInt64 state.GenUtime →
        ((main w).exitCode = some 0 ∨ ∃ text, (Stream.stdout, text) ∈ (main w).output) →
        state.GenUtime ≠ 0 ∧ 0 ≤ w.now - state.GenUtime ∧ w.now - state.GenUtime ≤ maxDelay)
      ∧ (∀ m : Int, isInt64 m → m < 0 → parseInt (fmtInt m) = .ok m)
      ∧ (∀ (w : World) (maxDelay : Int),
          parseInt w.maxDelayStr = .ok maxDelay → maxDelay < 0 →
          (main w).exitCode = some 1 ∧ ∀ text, (Stream.stdout, text) ∉ (main w).output) := by
  refine ⟨?_, ?_, ?_⟩
  · intro w maxDelay stateJSON state hcfg hget hdec hnow0 hnow hgen hs
    obtain ⟨m, j, st, hcfg2, hget2, hdec2, hnz, h0, hle⟩ := (main_success_iff w).mp hs
    rw [hcfg] at hcfg2
    rw [hget] at hget2
    cases hcfg2
    cases hget2
    rw [hdec] at hdec2
    cases hdec2
    refine ⟨hnz, ?_, ?_⟩ <;>
    · unfold subInt64 wrapInt64 at h0 hle
      unfold isInt64 minInt64 maxInt64 at hnow hgen
      omega
  · intro m hm _
    exact parseInt_fmtInt m hm
  · intro w maxDelay hcfg hneg
    have hno : ¬ ((main w).exitCode = some 0 ∨ ∃ text, (Stream.stdout, text) ∈ (main w).output) := by
      intro hs
      obtain ⟨m, j, st, hcfg2, _, _, _, h0, hle⟩ := (main_success_iff w).mp hs
      rw [hcfg] at hcfg2
      cases hcfg2
      omega
    obtain ⟨pre, stream, head, mid, code, hmain, _, hshape⟩ := main_after_config w maxDelay hcfg
    constructor
    · rcases hshape with ⟨_, hc, _⟩ | ⟨_, hc, _⟩
      · rw [hmain, hc]
      · exact absurd (Or.inl (by rw [hmain, hc])) hno
    · intro text hmem
      exact hno (Or.inr ⟨text, hmem⟩)

/-- Witness of C10: the healthy run at delay 200 satisfies the bounds; the limit
-10 is accepted by `ParseInt`, and the run under it fails with code 1. -/
theorem main_ok_sound_witness :
    ((1000000000 : Int) ≠ 0 ∧ (0 : Int) ≤ 1000000200 - 1000000000
        ∧ (1000000200 : Int) - 1000000000 ≤ 300)
      ∧ parseInt (fmtInt (-10)) = .ok (-10)
      ∧ parseInt negativeLimitWorld.maxDelayStr = .ok (-10)
      ∧ (main negativeLimitWorld).exitCode = some 1 :=
  ⟨main_ok_sound.1 freshWorld 300 "state" ⟨1000000000⟩ rfl rfl rfl (by decide) (by decide)
      (by decide) (Or.inl rfl),
    main_ok_sound.2.1 (-10) (by decide) (by decide), rfl,
    (main_ok_sound.2.2 negativeLimitWorld (-10) rfl (by decide)).1⟩

end HealthChecker
